import Mathlib

/-!
Shallow embedding of `scripts/migration/notion_to_supabase_enhanced.py`:
the Notion-CSV → Supabase expense migration pipeline.  Pure functions of the
script become Lean functions; the Supabase client is modelled as an explicit
oracle (`Nat → List _ → Except String Nat` for batched inserts), and the
pipeline's control flow as explicit Lean control flow.  Machine floats are
modelled as rationals (the script's `float` values arise from parsing finite
decimal literals, which rationals represent exactly).
-/

set_option maxRecDepth 4096

/-! ## Python primitives used by the script -/

/-- Python's whitespace set for `str.strip` and `\s` (ASCII part). -/
def isPyWs (c : Char) : Bool :=
  (c == ' ') || (c == '\t') || (c == '\n') || (c == '\r') || (c == '\x0b') || (c == '\x0c')

/-- Python `str.strip()` on a character list: drop whitespace from both ends. -/
def pyStrip (l : List Char) : List Char :=
  ((l.dropWhile isPyWs).reverse.dropWhile isPyWs).reverse

/-- Python `str.strip()` on strings. -/
def pyStripStr (s : String) : String := String.mk (pyStrip s.data)

/-- Value of a list of decimal digit characters. -/
def digitsToNat (l : List Char) : Nat :=
  l.foldl (fun n c => 10 * n + (c.toNat - 48)) 0

/-! ## Normalizers (source lines 37-105)

The CSV cell value is modelled as `Option String`: `none` is a missing cell
(pandas `NaN`, for which `pd.isna` is true), `some s` a present value. -/

/-- `clean_notion_text` body on a present string: strip, and if a literal
`(` occurs, truncate at the first `(` and strip again
(`text.split('(')[0].strip()`). -/
def clean_core (s : String) : String :=
  let t := pyStrip s.data
  if t.contains '(' then String.mk (pyStrip (t.takeWhile (fun c => ! (c == '(')))) else String.mk t

/-- Source `clean_notion_text`: `None` for missing input, otherwise the
stripped/truncated text. -/
def clean_notion_text : Option String → Option String
  | none => none
  | some s => some (clean_core s)

/-- The hard-coded spelling-variant table of `normalize_category_name`
(source lines 62-66). -/
def category_mapping : List (String × String) :=
  [("Quà vặt", "Quà vật"),
   ("Sức khoẻ", "Sức khỏe"),
   ("Biếu gia đình", "Biểu gia đình")]

/-- Source `normalize_category_name`: `None` for missing input, otherwise
`category_mapping.get(category, category)`. -/
def normalize_category_name : Option String → Option String
  | none => none
  | some c => some ((((category_mapping.find? (fun p => p.1 == c))).map (fun p => p.2)).getD c)

/-- Remove every comma, modelling Python `str.replace(',', '')`. -/
def remove_commas (s : String) : String := String.mk (s.data.filter (fun c => ! (c == ',')))

/-- Exponent suffix of a Python float literal: after an optional `e`/`E`
with optional sign come one or more digits.  Returns the exponent and the
unconsumed rest; `none` when an `e` is present but malformed. -/
def expPart : List Char → Option (Int × List Char)
  | [] => some (0, [])
  | c :: t =>
    if c = 'e' ∨ c = 'E' then
      let p : Int × List Char :=
        match t with
        | '+' :: u => (1, u)
        | '-' :: u => (-1, u)
        | u => (1, u)
      let ds := p.2.takeWhile Char.isDigit
      let rest := p.2.dropWhile Char.isDigit
      if ds = [] then none else some (p.1 * (digitsToNat ds : Int), rest)
    else some (0, c :: t)

/-- Model of Python's builtin `float(str)` on finite decimal literals:
optional surrounding whitespace, optional sign, digits with an optional
fractional part, optional decimal exponent.  (The `inf`/`nan` spellings,
digit-group underscores and non-ASCII digits accepted by CPython are outside
the model; the script's data never contains them.)  `none` models
`ValueError`. -/
def pyFloat? (s : String) : Option ℚ :=
  let l := pyStrip s.data
  let p : Bool × List Char :=
    match l with
    | '+' :: t => (false, t)
    | '-' :: t => (true, t)
    | t => (false, t)
  let ip := p.2.takeWhile Char.isDigit
  let r1 := p.2.dropWhile Char.isDigit
  let q : List Char × List Char :=
    match r1 with
    | '.' :: t => (t.takeWhile Char.isDigit, t.dropWhile Char.isDigit)
    | t => ([], t)
  match expPart q.2 with
  | none => none
  | some er =>
    if ip = [] ∧ q.1 = [] then none
    else if er.2 ≠ [] then none
    else
      let e : Int := er.1 - (q.1.length : Int)
      let mag : ℚ :=
        if 0 ≤ e then mkRat ((digitsToNat (ip ++ q.1) : Int) * (10 : Int) ^ e.toNat) 1
        else mkRat (digitsToNat (ip ++ q.1) : Int) ((10 : Nat) ^ (-e).toNat)
      some (if p.1 then -mag else mag)

/-- Source `clean_amount`: `0.0` for missing input, otherwise remove commas
and parse as a float, with `0.0` (after a logged warning) on parse failure. -/
def clean_amount : Option String → ℚ
  | none => 0
  | some a =>
    match pyFloat? (remove_commas a) with
    | some v => v
    | none => 0

/-! ## Date parsing (source lines 87-105)

Models `datetime.strptime` with the two formats `"%B %d, %Y"` and
`"%Y-%m-%d"` followed by `strftime("%Y-%m-%d")`.  `strptime` is modelled per
CPython's `_strptime`: `%B` is a case-insensitive full month name, `%d` is
one or two digits valued 1-31, `%m` one or two digits valued 1-12, `%Y`
exactly four digits, a space in the format one or more whitespace
characters; the whole input must be consumed, and the parsed triple must be
a real calendar date (otherwise `ValueError`). -/

/-- The twelve English month names, lowercased, with their numbers. -/
def monthNames : List (List Char × Nat) :=
  [("january".data, 1), ("february".data, 2), ("march".data, 3), ("april".data, 4),
   ("may".data, 5), ("june".data, 6), ("july".data, 7), ("august".data, 8),
   ("september".data, 9), ("october".data, 10), ("november".data, 11), ("december".data, 12)]

/-- Case-insensitively consume the name `p` from the front of `l`. -/
def stripNameCI : List Char → List Char → Option (List Char)
  | [], l => some l
  | _ :: _, [] => none
  | p :: ps, c :: cs => if c.toLower = p then stripNameCI ps cs else none

/-- Match a full month name (no month name is a prefix of another, so
first-match equals the regex's longest-match). -/
def matchMonth (l : List Char) : Option (Nat × List Char) :=
  monthNames.findSome? (fun mn => (stripNameCI mn.1 l).map (fun r => (mn.2, r)))

/-- One or more whitespace characters (`\s+`, the image of a space in the
format string). -/
def ws1 : List Char → Option (List Char)
  | [] => none
  | c :: t => if isPyWs c then some (t.dropWhile isPyWs) else none

/-- A literal character of the format string. -/
def lit (c : Char) : List Char → Option (List Char)
  | [] => none
  | x :: t => if x = c then some t else none

/-- `%d`: one or two digits valued 1-31. -/
def parseDay (l : List Char) : Option (Nat × List Char) :=
  let ds := l.takeWhile Char.isDigit
  let r := l.dropWhile Char.isDigit
  if ds.length = 1 ∨ ds.length = 2 then
    let v := digitsToNat ds
    if 1 ≤ v ∧ v ≤ 31 then some (v, r) else none
  else none

/-- `%m`: one or two digits valued 1-12. -/
def parseMonthNum (l : List Char) : Option (Nat × List Char) :=
  let ds := l.takeWhile Char.isDigit
  let r := l.dropWhile Char.isDigit
  if ds.length = 1 ∨ ds.length = 2 then
    let v := digitsToNat ds
    if 1 ≤ v ∧ v ≤ 12 then some (v, r) else none
  else none

/-- `%Y`: exactly four digits. -/
def parseYear4 : List Char → Option (Nat × List Char)
  | a :: b :: c :: d :: r =>
    if a.isDigit ∧ b.isDigit ∧ c.isDigit ∧ d.isDigit
    then some (digitsToNat [a, b, c, d], r) else none
  | _ => none

/-- Gregorian leap year, as in `datetime`. -/
def isLeapYear (y : Nat) : Bool := decide (y % 4 = 0 ∧ (y % 100 ≠ 0 ∨ y % 400 = 0))

/-- Days in a month, as in `datetime`. -/
def daysInMonth (y m : Nat) : Nat :=
  if m = 2 then (if isLeapYear y then 29 else 28)
  else if m = 4 ∨ m = 6 ∨ m = 9 ∨ m = 11 then 30
  else 31

/-- `datetime(y, m, d)` constructor check (`MINYEAR = 1`, `MAXYEAR = 9999`). -/
def validYMD (y m d : Nat) : Bool :=
  decide (1 ≤ y ∧ y ≤ 9999 ∧ 1 ≤ m ∧ m ≤ 12 ∧ 1 ≤ d ∧ d ≤ daysInMonth y m)

/-- `strptime(s, "%B %d, %Y")` returning `(year, month, day)`. -/
def parseLongDate (s : String) : Option (Nat × Nat × Nat) :=
  match matchMonth s.data with
  | none => none
  | some (m, r1) =>
    match ws1 r1 with
    | none => none
    | some r2 =>
      match parseDay r2 with
      | none => none
      | some (d, r3) =>
        match lit ',' r3 with
        | none => none
        | some r4 =>
          match ws1 r4 with
          | none => none
          | some r5 =>
            match parseYear4 r5 with
            | none => none
            | some (y, r6) =>
              if r6 = [] ∧ validYMD y m d = true then some (y, m, d) else none

/-- `strptime(s, "%Y-%m-%d")` returning `(year, month, day)`. -/
def parseIsoDate (s : String) : Option (Nat × Nat × Nat) :=
  match parseYear4 s.data with
  | none => none
  | some (y, r1) =>
    match lit '-' r1 with
    | none => none
    | some r2 =>
      match parseMonthNum r2 with
      | none => none
      | some (m, r3) =>
        match lit '-' r3 with
        | none => none
        | some r4 =>
          match parseDay r4 with
          | none => none
          | some (d, r5) =>
            if r5 = [] ∧ validYMD y m d = true then some (y, m, d) else none

/-- Zero-pad to two digits (`%m`, `%d` of `strftime`). -/
def pad2 (n : Nat) : String := if n < 10 then "0" ++ toString n else toString n

/-- Zero-pad to four digits (`%Y` of `strftime` for the in-range years the
script produces). -/
def pad4 (n : Nat) : String :=
  if n < 10 then "000" ++ toString n
  else if n < 100 then "00" ++ toString n
  else if n < 1000 then "0" ++ toString n
  else toString n

/-- `strftime("%Y-%m-%d")` on a parsed `(year, month, day)`. -/
def fmtIso (d : Nat × Nat × Nat) : String := pad4 d.1 ++ "-" ++ pad2 d.2.1 ++ "-" ++ pad2 d.2.2

/-- Source `parse_notion_date`: `None` for missing input; otherwise try the
long Notion format first, the ISO format second, formatting the first
success as `YYYY-MM-DD`; `None` (after a logged warning) when both fail. -/
def parse_notion_date : Option String → Option String
  | none => none
  | some s =>
    match parseLongDate s with
    | some d => some (fmtIso d)
    | none =>
      match parseIsoDate s with
      | some d => some (fmtIso d)
      | none => none

/-! ## Data model -/

/-- One raw CSV row (columns used by the script); every cell is untyped and
possibly missing. -/
structure RawRecord where
  name : Option String
  amountCell : Option String
  categoryCell : Option String
  typeCell : Option String
  dateCell : Option String
  notes : Option String

/-- One row of the cleaned table built at source lines 165-172. -/
structure CleanedRecord where
  description : Option String
  amount : ℚ
  category : Option String
  type : Option String
  date : Option String
  note : Option String

/-- One destination record as built at source lines 269-277. -/
structure ExpenseRecord where
  user_id : String
  category_id : String
  type_id : String
  description : Option String
  amount : ℚ
  date : Option String
  note : Option String

/-! ## Source Loader (`load_and_clean_csv`, source lines 141-188) -/

/-- Field-by-field normalization of one row (the `pd.DataFrame` construction
at source lines 165-172). -/
def clean_row (r : RawRecord) : CleanedRecord where
  description := clean_notion_text r.name
  amount := clean_amount r.amountCell
  category := normalize_category_name (clean_notion_text r.categoryCell)
  type := clean_notion_text r.typeCell
  date := parse_notion_date r.dateCell
  note :=
    match r.notes with
    | none => none
    | some s => if pyStrip s.data = [] then none else clean_notion_text (some s)

/-- Source `load_and_clean_csv` after the CSV parse: normalize every row,
then drop rows with a null date.  Returns the retained table, the number of
rows read, and the number of rows removed
(`original_count - len(cleaned_df)`). -/
def load_and_clean_csv (rows : List RawRecord) : List CleanedRecord × Nat × Nat :=
  let cleaned := rows.map clean_row
  let kept := cleaned.filter (fun r => r.date.isSome)
  (kept, rows.length, cleaned.length - kept.length)

/-! ## Validator (`validate_data`, source lines 190-249) -/

/-- Distinct values in first-appearance order (pandas `Series.unique`),
restricted to a `seen` accumulator. -/
def pdUniqueAux (seen : List String) : List String → List String
  | [] => []
  | x :: xs => if x ∈ seen then pdUniqueAux seen xs else x :: pdUniqueAux (x :: seen) xs

/-- Distinct values in first-appearance order (pandas `Series.unique`). -/
def pdUnique (l : List String) : List String := pdUniqueAux [] l

/-- The distinct non-null category values of the cleaned table. -/
def categoryValues (df : List CleanedRecord) : List String :=
  pdUnique (df.filterMap (fun r => r.category))

/-- The distinct non-null type values of the cleaned table. -/
def typeValues (df : List CleanedRecord) : List String :=
  pdUnique (df.filterMap (fun r => r.type))

/-- The key set of a name → identifier reference map. -/
def mapKeys (m : List (String × String)) : List String := m.map (fun p => p.1)

/-- The offending categories with their row counts, as printed at source
lines 204-209: each distinct non-null category absent from the reference
map, paired with `len(df[df['category'] == cat])`. -/
def invalidCategoryErrors (df : List CleanedRecord) (cmap : List (String × String)) :
    List (String × Nat) :=
  ((categoryValues df).filter (fun c => ! (mapKeys cmap).contains c)).map
    (fun c => (c, (df.filter (fun r => r.category == some c)).length))

/-- The offending types with their row counts (source lines 211-221). -/
def invalidTypeErrors (df : List CleanedRecord) (tmap : List (String × String)) :
    List (String × Nat) :=
  ((typeValues df).filter (fun t => ! (mapKeys tmap).contains t)).map
    (fun t => (t, (df.filter (fun r => r.type == some t)).length))

/-- Source `validate_data`: `sys.exit(1)` (modelled as `Except.error` with
the offending values and counts) when some category or type fails to
resolve; success otherwise. -/
def validate_data (df : List CleanedRecord) (cmap tmap : List (String × String)) :
    Except (List (String × Nat) × List (String × Nat)) Unit :=
  let ce := invalidCategoryErrors df cmap
  let te := invalidTypeErrors df tmap
  if ce = [] ∧ te = [] then Except.ok () else Except.error (ce, te)

/-! ## Transformer (`transform_data`, source lines 251-284) -/

/-- The row test of the loop at source lines 262-267: both the category and
the type must be keys of their reference maps (a `None` value is not a
key). -/
def rowOk (cmap tmap : List (String × String)) (r : CleanedRecord) : Bool :=
  (match r.category with
   | some c => (mapKeys cmap).contains c
   | none => false)
  && (match r.type with
      | some t => (mapKeys tmap).contains t
      | none => false)

/-- Reference-map lookup (`category_map[...]`). -/
def mapLookup (m : List (String × String)) (k : String) : Option String :=
  (m.find? (fun p => p.1 == k)).map (fun p => p.2)

/-- The destination record built at source lines 269-277.  The lookups
cannot fail for a row that passed `rowOk`; the `getD ""` default is
unreachable there. -/
def mkExpense (cmap tmap : List (String × String)) (uid : String) (r : CleanedRecord) :
    ExpenseRecord where
  user_id := uid
  category_id := ((r.category.bind (mapLookup cmap))).getD ""
  type_id := ((r.type.bind (mapLookup tmap))).getD ""
  description := r.description
  amount := r.amount
  date := r.date
  note := r.note

/-- Source `transform_data`: one destination record per resolvable row in
input order, plus the running skip counter. -/
def transform_data (cmap tmap : List (String × String)) (uid : String) :
    List CleanedRecord → List ExpenseRecord × Nat
  | [] => ([], 0)
  | r :: rest =>
    let t := transform_data cmap tmap uid rest
    if rowOk cmap tmap r then (mkExpense cmap tmap uid r :: t.1, t.2)
    else (t.1, t.2 + 1)

/-! ## Batch Loader (`migrate_expenses`, source lines 286-317)

The Supabase insert call is modelled as an oracle
`ins : Nat → List α → Except String Nat` taking the 1-based batch number
(the `i//batch_size + 1` the script reports) and the batch, and returning
`len(response.data)` on success or the caught exception's message on
failure. -/

/-- Partition into contiguous batches of 100 (the script's
`expenses[i:i + batch_size]` slices with `batch_size = 100`): `acc` holds
the current partial batch reversed, `k` its remaining capacity minus one. -/
def chunksGo {α : Type} : List α → List α → Nat → List (List α)
  | [], acc, _ => if acc.isEmpty then [] else [acc.reverse]
  | x :: xs, acc, 0 => (x :: acc).reverse :: chunksGo xs [] 99
  | x :: xs, acc, k + 1 => chunksGo xs (x :: acc) k

/-- The contiguous batches of 100 issued by the loop at source line 297. -/
def chunks100 {α : Type} (l : List α) : List (List α) := chunksGo l [] 99

/-- Source `migrate_expenses`: attempt every batch in order; a failing batch
is caught, recorded as `(batch number, message)`, and does not stop the
loop.  Returns the running inserted total, the error list, and the list of
batches attempted (each one insert call issued to the destination). -/
def migrate_expenses {α : Type} (ins : Nat → List α → Except String Nat) (expenses : List α) :
    Nat × List (Nat × String) × List (List α) :=
  (chunks100 expenses).enum.foldl
    (fun st p =>
      match ins (p.1 + 1) p.2 with
      | Except.ok n => (st.1 + n, st.2.1, st.2.2 ++ [p.2])
      | Except.error msg => (st.1, st.2.1 ++ [(p.1 + 1, msg)], st.2.2 ++ [p.2]))
    (0, [], [])

/-! ## Pipeline control flow (`main`, source lines 339-401) -/

/-- The pipeline from the validation step on (source lines 370-389):
a validation failure exits with code 1 before the transform and before any
insert; otherwise transform then batch-load.  Returns the exit code, the
batches actually issued to the destination, and the validation error if
any. -/
def pipeline_from_df (df : List CleanedRecord) (cmap tmap : List (String × String))
    (uid : String) (ins : Nat → List ExpenseRecord → Except String Nat) :
    Nat × List (List ExpenseRecord) × Option (List (String × Nat) × List (String × Nat)) :=
  match validate_data df cmap tmap with
  | Except.error e => (1, [], some e)
  | Except.ok _ =>
    let t := transform_data cmap tmap uid df
    let m := migrate_expenses ins t.1
    (0, m.2.2, none)

/-- Lowercase hexadecimal digit, the character class `[0-9a-f]` of the UUID
pattern at source line 356. -/
def isHexLower (c : Char) : Bool := c.isDigit || (decide ('a' ≤ c) && decide (c ≤ 'f'))

/-- Consume exactly `n` lowercase hex digits. -/
def hexRun : Nat → List Char → Option (List Char)
  | 0, l => some l
  | _ + 1, [] => none
  | n + 1, c :: t => if isHexLower c then hexRun n t else none

/-- Consume the 8-4-4-4-12 hyphenated hex core of the UUID pattern. -/
def uuidCore (l : List Char) : Option (List Char) :=
  ((((((((hexRun 8 l).bind (lit '-')).bind (hexRun 4)).bind (lit '-')).bind
      (hexRun 4)).bind (lit '-')).bind (hexRun 4)).bind (lit '-')).bind (hexRun 12)

/-- The script's pre-flight check (source lines 356-357):
`re.match(r'^[0-9a-f]{8}-...-[0-9a-f]{12}$', user_id)`.  Python's `$`
(without `re.MULTILINE`) matches at the end of the string and also just
before one trailing newline, so a match leaves either nothing or a single
`'\n'` unconsumed. -/
def uuidMatch (s : String) : Bool :=
  match uuidCore s.data with
  | some rest => (rest == []) || (rest == ['\n'])
  | none => false

/-- Follows the spec's words: the canonical 36-character lowercase
hyphenated UUID textual form — 8, 4, 4, 4 and 12 lowercase hex digits
joined by hyphens, and nothing else. -/
def spec_canonical_uuid (s : String) : Bool :=
  match uuidCore s.data with
  | some rest => rest == []
  | none => false

/-- Outcome of one run of `main`, keeping what the claims observe: whether
the run stopped at the pre-flight identifier check, how many destination
read queries were issued (the two reference-map fetches), and the insert
batches issued. -/
structure MainOutcome where
  exitOnPreflight : Bool
  destinationReads : Nat
  writes : List (List ExpenseRecord)

/-- Source `main`: the UUID format check runs first (source lines 356-360);
only a run that passes it reaches the two reference-map fetches, the
loader, the validator and the batch loader. -/
def main_model (uid : String) (rows : List RawRecord) (cmap tmap : List (String × String))
    (ins : Nat → List ExpenseRecord → Except String Nat) : MainOutcome :=
  if uuidMatch uid = false then ⟨true, 0, []⟩
  else
    let df := (load_and_clean_csv rows).1
    let r := pipeline_from_df df cmap tmap uid ins
    ⟨false, 2, r.2.1⟩

/-! ## Helper lemmas -/

/-- `str.strip()` returns a contiguous piece of its input. -/
theorem pyStrip_contiguous (l : List Char) : pyStrip l <:+: l := by
  obtain ⟨u, hu⟩ : l.dropWhile isPyWs <:+ l := List.dropWhile_suffix _
  obtain ⟨v, hv⟩ : (l.dropWhile isPyWs).reverse.dropWhile isPyWs <:+
      (l.dropWhile isPyWs).reverse := List.dropWhile_suffix _
  refine ⟨u, v.reverse, ?_⟩
  have hm : ((l.dropWhile isPyWs).reverse.dropWhile isPyWs).reverse ++ v.reverse
      = l.dropWhile isPyWs := by
    rw [← List.reverse_append, hv, List.reverse_reverse]
  calc u ++ pyStrip l ++ v.reverse
      = u ++ (((l.dropWhile isPyWs).reverse.dropWhile isPyWs).reverse ++ v.reverse) := by
        rw [List.append_assoc]; rfl
    _ = u ++ l.dropWhile isPyWs := by rw [hm]
    _ = l := hu

/-- Membership in the result of `pdUniqueAux`. -/
theorem pdUniqueAux_mem (l : List String) :
    ∀ (seen : List String) (x : String), x ∈ pdUniqueAux seen l ↔ (x ∈ l ∧ x ∉ seen) := by
  induction l with
  | nil => intro seen x; simp [pdUniqueAux]
  | cons y ys ih =>
    intro seen x
    by_cases hy : y ∈ seen
    · rw [pdUniqueAux, if_pos hy, ih seen x]
      constructor
      · rintro ⟨h1, h2⟩; exact ⟨List.mem_cons_of_mem _ h1, h2⟩
      · rintro ⟨h1, h2⟩
        rcases List.mem_cons.mp h1 with h | h
        · exact absurd (h ▸ hy) h2
        · exact ⟨h, h2⟩
    · rw [pdUniqueAux, if_neg hy]
      rw [List.mem_cons, ih (y :: seen) x]
      constructor
      · rintro (rfl | ⟨h1, h2⟩)
        · exact ⟨List.mem_cons_self _ _, hy⟩
        · exact ⟨List.mem_cons_of_mem _ h1, fun hx => h2 (List.mem_cons_of_mem _ hx)⟩
      · rintro ⟨h1, h2⟩
        by_cases hxy : x = y
        · exact Or.inl hxy
        · rcases List.mem_cons.mp h1 with h | h
          · exact absurd h hxy
          · refine Or.inr ⟨h, fun hx => ?_⟩
            rcases List.mem_cons.mp hx with h' | h'
            · exact hxy h'
            · exact h2 h'

/-- Membership in `pdUnique`. -/
theorem pdUnique_mem (l : List String) (x : String) : x ∈ pdUnique l ↔ x ∈ l := by
  simp [pdUnique, pdUniqueAux_mem]

/-- A string occurs among the distinct category values iff some row carries
it. -/
theorem categoryValues_mem (df : List CleanedRecord) (c : String) :
    c ∈ categoryValues df ↔ some c ∈ df.map (fun r => r.category) := by
  simp [categoryValues, pdUnique_mem, List.mem_filterMap, List.mem_map]

/-- A string occurs among the distinct type values iff some row carries
it. -/
theorem typeValues_mem (df : List CleanedRecord) (t : String) :
    t ∈ typeValues df ↔ some t ∈ df.map (fun r => r.type) := by
  simp [typeValues, pdUnique_mem, List.mem_filterMap, List.mem_map]

/-- `contains` agrees with membership (for a lawful `BEq`). -/
theorem containsKeys_iff {α : Type} [BEq α] [LawfulBEq α] (ks : List α) (c : α) :
    ks.contains c = true ↔ c ∈ ks := by
  simp [List.elem_iff]

/-! ## C5, C6, C7, C10: the normalizers -/

/-- C5: `clean_amount` yields 0 on missing input; otherwise it removes all
commas and parses the rest as a decimal number, yielding 0 on parse failure;
`clean_amount("50,000") = 50000.0` and `clean_amount("abc") = 0.0`. -/
theorem clean_amount_spec :
    clean_amount none = 0
    ∧ (∀ s : String, clean_amount (some s) = (pyFloat? (remove_commas s)).getD 0)
    ∧ clean_amount (some "50,000") = 50000
    ∧ clean_amount (some "abc") = 0 := by
  refine ⟨rfl, fun s => ?_, by decide, by decide⟩
  cases h : pyFloat? (remove_commas s) <;> simp [clean_amount, h]

/-- C6: `parse_notion_date` yields null on missing input; otherwise it tries
the long-form format first and the ISO format second, returning the first
success and null when both fail; both `"January 1, 2025"` and
`"2025-01-01"` yield `2025-01-01`. -/
theorem parse_notion_date_spec :
    parse_notion_date none = none
    ∧ (∀ s : String, parse_notion_date (some s) =
        match parseLongDate s with
        | some d => some (fmtIso d)
        | none => (parseIsoDate s).map fmtIso)
    ∧ parse_notion_date (some "January 1, 2025") = some "2025-01-01"
    ∧ parse_notion_date (some "2025-01-01") = some "2025-01-01"
    ∧ parse_notion_date (some "not a date") = none := by
  refine ⟨rfl, fun s => ?_, by decide, by decide, by decide⟩
  cases h : parseLongDate s with
  | some d => simp [parse_notion_date, h]
  | none => cases h2 : parseIsoDate s <;> simp [parse_notion_date, h, h2]

/-- C7: `clean_notion_text` yields null on missing input; otherwise it
yields `clean_core`, whose result contains no opening parenthesis and is a
contiguous piece of the input — so no parenthesis-delimited trailing link
fragment of the input survives. -/
theorem clean_notion_text_spec :
    clean_notion_text none = none
    ∧ (∀ s : String, clean_notion_text (some s) = some (clean_core s))
    ∧ (∀ s : String, (clean_core s).data.all (fun c => ! (c == '(')) = true)
    ∧ (∀ s : String, (clean_core s).data <:+: s.data) := by
  refine ⟨rfl, fun s => rfl, fun s => ?_, fun s => ?_⟩
  · simp only [clean_core]
    split
    · rw [List.all_eq_true]
      intro c hc
      have hc' : c ∈ (pyStrip s.data).takeWhile (fun c => ! (c == '(')) :=
        (pyStrip_contiguous _).subset hc
      simpa using List.mem_takeWhile_imp hc'
    · next h =>
      rw [List.all_eq_true]
      intro c hc
      rcases eq_or_ne c '(' with rfl | hne
      · exact absurd ((containsKeys_iff _ _).mpr hc) h
      · simpa using hne
  · simp only [clean_core]
    split
    · refine (pyStrip_contiguous _).trans ?_
      refine List.IsInfix.trans ?_ (pyStrip_contiguous s.data)
      have hpre : (pyStrip s.data).takeWhile (fun c => ! (c == '(')) <+: pyStrip s.data :=
        ⟨(pyStrip s.data).dropWhile (fun c => ! (c == '(')),
          List.takeWhile_append_dropWhile _ _⟩
      exact hpre.isInfix
    · exact pyStrip_contiguous s.data

/-- C10: `normalize_category_name` is idempotent (no value of the
spelling-variant table is itself a key of the table), and is the identity on
inputs outside the table's keys. -/
theorem normalize_category_name_idempotent :
    (∀ v : Option String,
      normalize_category_name (normalize_category_name v) = normalize_category_name v)
    ∧ (∀ s : String, category_mapping.find? (fun p => p.1 == s) = none →
        normalize_category_name (some s) = some s)
    ∧ category_mapping.all (fun p => category_mapping.all (fun q => ! (q.1 == p.2))) = true := by
  have hid : ∀ s : String, category_mapping.find? (fun p => p.1 == s) = none →
      normalize_category_name (some s) = some s := by
    intro s h
    simp [normalize_category_name, h]
  refine ⟨?_, hid, by decide⟩
  intro v
  cases v with
  | none => rfl
  | some s =>
    by_cases h1 : "Quà vặt" = s
    · subst h1; decide
    · by_cases h2 : "Sức khoẻ" = s
      · subst h2; decide
      · by_cases h3 : "Biếu gia đình" = s
        · subst h3; decide
        · have e1 : (("Quà vặt" : String) == s) = false := beq_eq_false_iff_ne.mpr h1
          have e2 : (("Sức khoẻ" : String) == s) = false := beq_eq_false_iff_ne.mpr h2
          have e3 : (("Biếu gia đình" : String) == s) = false := beq_eq_false_iff_ne.mpr h3
          have hf : category_mapping.find? (fun p => p.1 == s) = none := by
            simp [category_mapping, List.find?, e1, e2, e3]
          rw [hid s hf, hid s hf]

/-- C10 witness: a category outside the table is left unchanged. -/
theorem normalize_category_name_idempotent_witness :
    category_mapping.find? (fun p => p.1 == "Ăn uống") = none
    ∧ normalize_category_name (some "Ăn uống") = some "Ăn uống" :=
  ⟨by decide, normalize_category_name_idempotent.2.1 "Ăn uống" (by decide)⟩

/-! ## C8: the Source Loader -/

/-- C8: after normalization every null-date row is dropped, the removed
count is rows read minus rows retained, and every retained record has a
non-null date; retention preserves order (the retained table is the filter
of the normalized table). -/
theorem load_and_clean_csv_spec (rows : List RawRecord) :
    ((load_and_clean_csv rows).1).all (fun r => r.date.isSome) = true
    ∧ (load_and_clean_csv rows).2.1 = rows.length
    ∧ (load_and_clean_csv rows).2.2 + (load_and_clean_csv rows).1.length = rows.length
    ∧ (load_and_clean_csv rows).1 = (rows.map clean_row).filter (fun r => r.date.isSome) := by
  refine ⟨?_, rfl, ?_, rfl⟩
  · rw [List.all_eq_true]
    intro r hr
    exact (List.mem_filter.mp hr).2
  · have hle : (((rows.map clean_row).filter (fun r => r.date.isSome))).length ≤
        (rows.map clean_row).length := List.length_filter_le _ _
    have h := Nat.sub_add_cancel hle
    simpa [load_and_clean_csv] using h

/-! ## C4: the Transformer -/

/-- C4: the transformer emits exactly one destination record per row whose
category and type both resolve, in input order, and counts every other row
in the skip counter; emitted plus skipped equals the input size. -/
theorem transform_data_spec (cmap tmap : List (String × String)) (uid : String)
    (df : List CleanedRecord) :
    (transform_data cmap tmap uid df).1 =
      (df.filter (rowOk cmap tmap)).map (mkExpense cmap tmap uid)
    ∧ (transform_data cmap tmap uid df).2 =
      (df.filter (fun r => ! rowOk cmap tmap r)).length
    ∧ (transform_data cmap tmap uid df).1.length + (transform_data cmap tmap uid df).2
      = df.length := by
  induction df with
  | nil => exact ⟨rfl, rfl, rfl⟩
  | cons r rest ih =>
    obtain ⟨ih1, ih2, ih3⟩ := ih
    cases h : rowOk cmap tmap r with
    | true =>
      refine ⟨?_, ?_, ?_⟩
      · simp [transform_data, h, List.filter_cons, ih1]
      · simp [transform_data, h, List.filter_cons, ih2]
      · simp only [transform_data, h, if_pos]
        simp only [List.length_cons]
        omega
    | false =>
      refine ⟨?_, ?_, ?_⟩
      · simp [transform_data, h, List.filter_cons, ih1]
      · simp [transform_data, h, List.filter_cons, ih2]
      · simp only [transform_data, h, if_neg, Bool.false_eq_true, not_false_iff]
        simp only [List.length_cons]
        omega

/-! ## C1: the Batch Loader -/

/-- A short final slice (at most the remaining capacity) becomes the last
batch. -/
theorem chunksGo_small {α : Type} (l : List α) :
    ∀ (acc : List α) (k : Nat), l.length ≤ k →
      chunksGo l acc k =
        if (acc.reverse ++ l).isEmpty then [] else [acc.reverse ++ l] := by
  induction l with
  | nil =>
    intro acc k _
    cases acc <;> simp [chunksGo]
  | cons x xs ih =>
    intro acc k h
    cases k with
    | zero => simp at h
    | succ k' =>
      have hx : (x :: acc).reverse ++ xs = acc.reverse ++ x :: xs := by
        simp
      rw [chunksGo, ih (x :: acc) k' (by simpa using h), hx]

/-- When at least a full batch remains, the loop takes the next 100 elements
as one batch and continues. -/
theorem chunksGo_step {α : Type} (k : Nat) (hk : k ≤ 99) :
    ∀ (l acc : List α), k + 1 ≤ l.length →
      chunksGo l acc k =
        (acc.reverse ++ l.take (k + 1)) :: chunksGo (l.drop (k + 1)) [] 99 := by
  induction k with
  | zero =>
    intro l acc h
    cases l with
    | nil => simp at h
    | cons x xs => simp [chunksGo]
  | succ k' ih =>
    intro l acc h
    cases l with
    | nil => simp at h
    | cons x xs =>
      rw [chunksGo, ih (by omega) xs (x :: acc) (by simpa using h)]
      simp [List.append_assoc]

/-- `chunks100` on a 250-element list: three contiguous batches. -/
theorem chunks100_of_length_250 {α : Type} (l : List α) (hl : l.length = 250) :
    chunks100 l = [l.take 100, (l.drop 100).take 100, l.drop 200] := by
  unfold chunks100
  rw [chunksGo_step 99 (by omega) l [] (by omega)]
  rw [chunksGo_step 99 (by omega) (l.drop 100) [] (by simp [hl])]
  have hdd : (l.drop 100).drop 100 = l.drop 200 := by
    rw [List.drop_drop]
  rw [hdd, chunksGo_small (l.drop 200) [] 99 (by simp [hl])]
  have hne : l.drop 200 ≠ [] := by
    intro he
    have := congrArg List.length he
    simp [hl] at this
  simp [hne]

/-- C1: on 250 records, exactly three contiguous order-preserving batches of
100, 100 and 50 are issued; when the write of the second batch fails the
failure is caught, the third batch is still attempted, the inserted total is
150, and the error list is exactly one entry carrying the second batch's
number (the script records the 1-based ordinal `2`, i.e. 0-based index 1)
and the underlying message. -/
theorem migrate_expenses_batch_failure {α : Type} (l : List α) (msg : String)
    (ins : Nat → List α → Except String Nat)
    (hl : l.length = 250)
    (hfail : ins 2 ((l.drop 100).take 100) = Except.error msg)
    (hok : ∀ (bn : Nat) (b : List α), bn ≠ 2 → ins bn b = Except.ok b.length) :
    migrate_expenses ins l =
      (150, [(1 + 1, msg)], [l.take 100, (l.drop 100).take 100, l.drop 200])
    ∧ l.take 100 ++ ((l.drop 100).take 100 ++ l.drop 200) = l
    ∧ (l.take 100).length = 100
    ∧ ((l.drop 100).take 100).length = 100
    ∧ (l.drop 200).length = 50 := by
  have hlen1 : (l.take 100).length = 100 := by simp [hl]
  have hlen2 : ((l.drop 100).take 100).length = 100 := by simp [hl]
  have hlen3 : (l.drop 200).length = 50 := by simp [hl]
  refine ⟨?_, ?_, hlen1, hlen2, hlen3⟩
  · have h1 : ins 1 (l.take 100) = Except.ok 100 := by
      rw [hok 1 _ (by omega), hlen1]
    have h3 : ins 3 (l.drop 200) = Except.ok 50 := by
      rw [hok 3 _ (by omega), hlen3]
    unfold migrate_expenses
    rw [chunks100_of_length_250 l hl]
    simp [List.enum, List.enumFrom, h1, h3, hfail]
  · have h12 : (l.drop 100).take 100 ++ l.drop 200 = l.drop 100 := by
      have := List.take_append_drop 100 (l.drop 100)
      rwa [List.drop_drop] at this
    rw [h12, List.take_append_drop]

/-- C1 witness: the scenario instantiated on the list `0, …, 249` with an
insert oracle that rejects exactly the second batch. -/
def insFailSecond : Nat → List Nat → Except String Nat :=
  fun bn b => if bn = 2 then Except.error "boom" else Except.ok b.length

/-- C1 witness: concrete 250-record run with the second batch failing. -/
theorem migrate_expenses_batch_failure_witness :
    migrate_expenses insFailSecond (List.range 250) =
      (150, [(1 + 1, "boom")],
        [(List.range 250).take 100, ((List.range 250).drop 100).take 100,
          (List.range 250).drop 200])
    ∧ (List.range 250).take 100 ++ (((List.range 250).drop 100).take 100
        ++ (List.range 250).drop 200) = List.range 250
    ∧ ((List.range 250).take 100).length = 100
    ∧ (((List.range 250).drop 100).take 100).length = 100
    ∧ ((List.range 250).drop 200).length = 50 :=
  migrate_expenses_batch_failure (List.range 250) "boom" insFailSecond (by simp)
    (by simp [insFailSecond])
    (fun bn b h => by simp [insFailSecond, h])

/-! ## C2: the Validator -/

/-- `contains = false` agrees with non-membership. -/
theorem not_containsKeys_iff {α : Type} [BEq α] [LawfulBEq α] (ks : List α) (c : α) :
    ks.contains c = false ↔ c ∉ ks := by
  rw [Bool.eq_false_iff, Ne, containsKeys_iff]

/-- Membership in the category error payload. -/
theorem mem_invalidCategoryErrors (df : List CleanedRecord) (cmap : List (String × String))
    (c : String) (n : Nat) :
    (c, n) ∈ invalidCategoryErrors df cmap ↔
      (some c ∈ df.map (fun r => r.category) ∧ c ∉ mapKeys cmap
        ∧ n = (df.filter (fun r => r.category == some c)).length) := by
  constructor
  · intro h
    rw [invalidCategoryErrors] at h
    obtain ⟨c', hc', heq⟩ := List.mem_map.mp h
    obtain ⟨rfl, rfl⟩ := Prod.mk.injEq .. ▸ heq
    obtain ⟨hmem, hcon⟩ := List.mem_filter.mp hc'
    refine ⟨(categoryValues_mem df c').mp hmem, ?_, rfl⟩
    exact (not_containsKeys_iff _ _).mp (by simpa using hcon)
  · rintro ⟨hmem, hnk, rfl⟩
    rw [invalidCategoryErrors]
    refine List.mem_map.mpr ⟨c, List.mem_filter.mpr ⟨(categoryValues_mem df c).mpr hmem, ?_⟩, rfl⟩
    simpa using (not_containsKeys_iff _ _).mpr hnk

/-- Membership in the type error payload. -/
theorem mem_invalidTypeErrors (df : List CleanedRecord) (tmap : List (String × String))
    (t : String) (n : Nat) :
    (t, n) ∈ invalidTypeErrors df tmap ↔
      (some t ∈ df.map (fun r => r.type) ∧ t ∉ mapKeys tmap
        ∧ n = (df.filter (fun r => r.type == some t)).length) := by
  constructor
  · intro h
    rw [invalidTypeErrors] at h
    obtain ⟨t', ht', heq⟩ := List.mem_map.mp h
    obtain ⟨rfl, rfl⟩ := Prod.mk.injEq .. ▸ heq
    obtain ⟨hmem, hcon⟩ := List.mem_filter.mp ht'
    refine ⟨(typeValues_mem df t').mp hmem, ?_, rfl⟩
    exact (not_containsKeys_iff _ _).mp (by simpa using hcon)
  · rintro ⟨hmem, hnk, rfl⟩
    rw [invalidTypeErrors]
    refine List.mem_map.mpr ⟨t, List.mem_filter.mpr ⟨(typeValues_mem df t).mpr hmem, ?_⟩, rfl⟩
    simpa using (not_containsKeys_iff _ _).mpr hnk

/-- The category error payload is empty iff every category resolves. -/
theorem invalidCategoryErrors_eq_nil_iff (df : List CleanedRecord)
    (cmap : List (String × String)) :
    invalidCategoryErrors df cmap = [] ↔
      (∀ c : String, some c ∈ df.map (fun r => r.category) → c ∈ mapKeys cmap) := by
  simp only [invalidCategoryErrors, List.map_eq_nil_iff, List.filter_eq_nil_iff]
  constructor
  · intro h c hc
    have hcv := h c ((categoryValues_mem df c).mpr hc)
    by_contra hk
    exact hcv (by simpa using (not_containsKeys_iff _ _).mpr hk)
  · intro h c hc
    have hk := h c ((categoryValues_mem df c).mp hc)
    simpa [containsKeys_iff] using hk

/-- The type error payload is empty iff every type resolves. -/
theorem invalidTypeErrors_eq_nil_iff (df : List CleanedRecord)
    (tmap : List (String × String)) :
    invalidTypeErrors df tmap = [] ↔
      (∀ t : String, some t ∈ df.map (fun r => r.type) → t ∈ mapKeys tmap) := by
  simp only [invalidTypeErrors, List.map_eq_nil_iff, List.filter_eq_nil_iff]
  constructor
  · intro h t ht
    have htv := h t ((typeValues_mem df t).mpr ht)
    by_contra hk
    exact htv (by simpa using (not_containsKeys_iff _ _).mpr hk)
  · intro h t ht
    have hk := h t ((typeValues_mem df t).mp ht)
    simpa [containsKeys_iff] using hk

/-- An error result determines its payload. -/
theorem validate_data_error_eq (df : List CleanedRecord) (cmap tmap : List (String × String))
    (ce te : List (String × Nat))
    (h : validate_data df cmap tmap = Except.error (ce, te)) :
    ce = invalidCategoryErrors df cmap ∧ te = invalidTypeErrors df tmap := by
  simp only [validate_data] at h
  split at h
  · exact absurd h (by simp)
  · rw [Except.error.injEq, Prod.mk.injEq] at h
    exact ⟨h.1.symm, h.2.symm⟩

/-- C2: validation succeeds iff every distinct non-null category and type
value resolves in its reference map; on failure the run exits with code 1
before any destination write, carrying exactly the offending values, each
with the count of rows carrying it. -/
theorem validate_data_gate (df : List CleanedRecord) (cmap tmap : List (String × String))
    (uid : String) (ins : Nat → List ExpenseRecord → Except String Nat) :
    (validate_data df cmap tmap = Except.ok () ↔
      ((∀ c : String, some c ∈ df.map (fun r => r.category) → c ∈ mapKeys cmap)
        ∧ (∀ t : String, some t ∈ df.map (fun r => r.type) → t ∈ mapKeys tmap)))
    ∧ (∀ ce te, validate_data df cmap tmap = Except.error (ce, te) →
        pipeline_from_df df cmap tmap uid ins = (1, [], some (ce, te))
        ∧ (∀ (c : String) (n : Nat), (c, n) ∈ ce ↔
            (some c ∈ df.map (fun r => r.category) ∧ c ∉ mapKeys cmap
              ∧ n = (df.filter (fun r => r.category == some c)).length))
        ∧ (∀ (t : String) (n : Nat), (t, n) ∈ te ↔
            (some t ∈ df.map (fun r => r.type) ∧ t ∉ mapKeys tmap
              ∧ n = (df.filter (fun r => r.type == some t)).length))) := by
  constructor
  · rw [← invalidCategoryErrors_eq_nil_iff df cmap, ← invalidTypeErrors_eq_nil_iff df tmap]
    simp only [validate_data]
    split
    · next h => simpa using h
    · next h =>
      constructor
      · intro he; exact absurd he (by simp)
      · intro he; exact absurd he h
  · intro ce te h
    obtain ⟨hce, hte⟩ := validate_data_error_eq df cmap tmap ce te h
    refine ⟨by simp [pipeline_from_df, h], ?_, ?_⟩
    · intro c n; rw [hce]; exact mem_invalidCategoryErrors df cmap c n
    · intro t n; rw [hte]; exact mem_invalidTypeErrors df tmap t n

/-- C2 witness data: one row with an unresolvable category and a resolvable
type. -/
def dfW : List CleanedRecord :=
  [⟨none, 0, some "Foo", some "Bar", some "2025-01-01", none⟩]

/-- C2 witness data: the type reference map. -/
def tmapW : List (String × String) := [("Bar", "t1")]

/-- A destination that accepts every batch in full. -/
def insOkAllE : Nat → List ExpenseRecord → Except String Nat :=
  fun _ b => Except.ok b.length

/-- C2 witness: the one-bad-category run fails validation with exactly that
category and its row count, and issues no write. -/
theorem validate_data_gate_witness :
    validate_data dfW [] tmapW = Except.error ([("Foo", 1)], [])
    ∧ pipeline_from_df dfW [] tmapW "user" insOkAllE = (1, [], some ([("Foo", 1)], [])) := by
  have h : validate_data dfW [] tmapW = Except.error ([("Foo", 1)], []) := by rfl
  exact ⟨h, ((validate_data_gate dfW [] tmapW "user" insOkAllE).2 [("Foo", 1)] [] h).1⟩

/-! ## C3: the amount invariant -/

/-- C3 counterexample: the input `"-5"` parses to a negative amount, so the
claimed invariant `amount ≥ 0` fails on the code. -/
theorem clean_amount_nonneg_counterexample :
    clean_amount (some "-5") = -5 ∧ ¬ (0 ≤ clean_amount (some "-5")) := by
  constructor
  · decide
  · decide

/-- C3 amended: the amount is 0 on missing or unparseable input, and is
non-negative whenever the parsed value is non-negative (an input denoting a
negative number yields that negative amount). -/
theorem clean_amount_amended :
    clean_amount none = 0
    ∧ (∀ s : String, pyFloat? (remove_commas s) = none → clean_amount (some s) = 0)
    ∧ (∀ (s : String) (q : ℚ), pyFloat? (remove_commas s) = some q → 0 ≤ q →
        0 ≤ clean_amount (some s)) := by
  refine ⟨rfl, fun s h => by simp [clean_amount, h],
    fun s q h hq => by simpa [clean_amount, h] using hq⟩

/-- C3 amended witness: the defaulted and the positive case, concretely. -/
theorem clean_amount_amended_witness :
    (pyFloat? (remove_commas "abc") = none ∧ clean_amount (some "abc") = 0)
    ∧ (pyFloat? (remove_commas "50,000") = some 50000 ∧ (0 : ℚ) ≤ 50000
        ∧ 0 ≤ clean_amount (some "50,000")) :=
  ⟨⟨by decide, clean_amount_amended.2.1 "abc" (by decide)⟩,
   ⟨by decide, by decide,
    clean_amount_amended.2.2 "50,000" 50000 (by decide) (by decide)⟩⟩

/-! ## C9: the pre-flight identifier check -/

/-- `hexRun` consumes exactly `n` characters. -/
theorem hexRun_length (n : Nat) :
    ∀ (l r : List Char), hexRun n l = some r → l.length = n + r.length := by
  induction n with
  | zero =>
    intro l r h
    simp only [hexRun, Option.some.injEq] at h
    subst h; omega
  | succ n ih =>
    intro l r h
    cases l with
    | nil => simp [hexRun] at h
    | cons c t =>
      rw [hexRun] at h
      split at h
      · have := ih t r h
        simp only [List.length_cons]
        omega
      · exact absurd h (by simp)

/-- `lit` consumes exactly one character. -/
theorem lit_length (c : Char) (l r : List Char) (h : lit c l = some r) :
    l.length = 1 + r.length := by
  cases l with
  | nil => simp [lit] at h
  | cons x t =>
    rw [lit] at h
    split at h
    · simp only [Option.some.injEq] at h
      subst h
      simp only [List.length_cons]
      omega
    · exact absurd h (by simp)

/-- The UUID core consumes exactly 36 characters. -/
theorem uuidCore_length (l r : List Char) (h : uuidCore l = some r) :
    l.length = 36 + r.length := by
  simp only [uuidCore, Option.bind_eq_some] at h
  obtain ⟨a8, ⟨a7, ⟨a6, ⟨a5, ⟨a4, ⟨a3, ⟨a2, ⟨a1, h1, h2⟩, h3⟩, h4⟩, h5⟩, h6⟩, h7⟩, h8⟩, h9⟩ := h
  have e1 := hexRun_length 8 l a1 h1
  have e2 := lit_length '-' a1 a2 h2
  have e3 := hexRun_length 4 a2 a3 h3
  have e4 := lit_length '-' a3 a4 h4
  have e5 := hexRun_length 4 a4 a5 h5
  have e6 := lit_length '-' a5 a6 h6
  have e7 := hexRun_length 4 a6 a7 h7
  have e8 := lit_length '-' a7 a8 h8
  have e9 := hexRun_length 12 a8 r h9
  omega

/-- `hexRun` only reads what it consumes: a successful run splits its input
into a consumed prefix that succeeds for any continuation. -/
theorem hexRun_split (n : Nat) :
    ∀ (l r : List Char), hexRun n l = some r →
      ∃ p, l = p ++ r ∧ ∀ r' : List Char, hexRun n (p ++ r') = some r' := by
  induction n with
  | zero =>
    intro l r h
    simp only [hexRun, Option.some.injEq] at h
    subst h
    exact ⟨[], rfl, fun r' => rfl⟩
  | succ n ih =>
    intro l r h
    cases l with
    | nil => simp [hexRun] at h
    | cons c t =>
      rw [hexRun] at h
      split at h
      · next hc =>
        obtain ⟨p, hp, hall⟩ := ih t r h
        refine ⟨c :: p, by simp [hp], fun r' => ?_⟩
        show hexRun (n + 1) (c :: (p ++ r')) = some r'
        rw [hexRun, if_pos hc]
        exact hall r'
      · exact absurd h (by simp)

/-- `lit` only reads what it consumes. -/
theorem lit_split (c : Char) (l r : List Char) (h : lit c l = some r) :
    ∃ p, l = p ++ r ∧ ∀ r' : List Char, lit c (p ++ r') = some r' := by
  cases l with
  | nil => simp [lit] at h
  | cons x t =>
    rw [lit] at h
    split at h
    · next hx =>
      simp only [Option.some.injEq] at h
      subst h
      exact ⟨[x], rfl, fun r' => by simp [lit, hx]⟩
    · exact absurd h (by simp)

/-- The UUID core only reads what it consumes. -/
theorem uuidCore_split (l r : List Char) (h : uuidCore l = some r) :
    ∃ p, l = p ++ r ∧ ∀ r' : List Char, uuidCore (p ++ r') = some r' := by
  simp only [uuidCore, Option.bind_eq_some] at h
  obtain ⟨a8, ⟨a7, ⟨a6, ⟨a5, ⟨a4, ⟨a3, ⟨a2, ⟨a1, h1, h2⟩, h3⟩, h4⟩, h5⟩, h6⟩, h7⟩, h8⟩, h9⟩ := h
  obtain ⟨p1, e1, f1⟩ := hexRun_split 8 l a1 h1
  obtain ⟨p2, e2, f2⟩ := lit_split '-' a1 a2 h2
  obtain ⟨p3, e3, f3⟩ := hexRun_split 4 a2 a3 h3
  obtain ⟨p4, e4, f4⟩ := lit_split '-' a3 a4 h4
  obtain ⟨p5, e5, f5⟩ := hexRun_split 4 a4 a5 h5
  obtain ⟨p6, e6, f6⟩ := lit_split '-' a5 a6 h6
  obtain ⟨p7, e7, f7⟩ := hexRun_split 4 a6 a7 h7
  obtain ⟨p8, e8, f8⟩ := lit_split '-' a7 a8 h8
  obtain ⟨p9, e9, f9⟩ := hexRun_split 12 a8 r h9
  refine ⟨p1 ++ (p2 ++ (p3 ++ (p4 ++ (p5 ++ (p6 ++ (p7 ++ (p8 ++ p9))))))), ?_, ?_⟩
  · rw [e1, e2, e3, e4, e5, e6, e7, e8, e9]
    simp [List.append_assoc]
  · intro r'
    have hassoc : (p1 ++ (p2 ++ (p3 ++ (p4 ++ (p5 ++ (p6 ++ (p7 ++ (p8 ++ p9)))))))) ++ r'
        = p1 ++ (p2 ++ (p3 ++ (p4 ++ (p5 ++ (p6 ++ (p7 ++ (p8 ++ (p9 ++ r')))))))) := by
      simp [List.append_assoc]
    rw [hassoc]
    simp only [uuidCore, f1, f2, f3, f4, f5, f6, f7, f8, f9, Option.some_bind]

/-- The spec-side canonical form holds exactly when the core pattern
consumes the whole identifier. -/
theorem spec_canonical_iff (s : String) :
    spec_canonical_uuid s = true ↔ uuidCore s.data = some [] := by
  unfold spec_canonical_uuid
  cases hc : uuidCore s.data with
  | none => simp
  | some r => simp [beq_iff_eq]

/-- C9 (amended): an identifier rejected by the script's check terminates
the run pre-flight, with no destination read and no write; the check accepts
exactly the canonical 36-character lowercase hyphenated form optionally
followed by one trailing newline (Python's `$`), so in particular every
canonical identifier passes, and a canonical identifier has 36
characters. -/
theorem uuid_preflight_amended (uid : String) (rows : List RawRecord)
    (cmap tmap : List (String × String))
    (ins : Nat → List ExpenseRecord → Except String Nat) :
    (uuidMatch uid = false → main_model uid rows cmap tmap ins = ⟨true, 0, []⟩)
    ∧ (uuidMatch uid = true ↔
        (spec_canonical_uuid uid = true
          ∨ ∃ core : String, spec_canonical_uuid core = true ∧ uid = core ++ "\n"))
    ∧ (spec_canonical_uuid uid = true → uid.length = 36) := by
  refine ⟨fun h => by simp [main_model, h], ?_, fun h => ?_⟩
  · constructor
    · intro h
      unfold uuidMatch at h
      cases hc : uuidCore uid.data with
      | none => rw [hc] at h; simp at h
      | some r =>
        rw [hc] at h
        rcases (by simpa [beq_iff_eq] using h : r = [] ∨ r = ['\n']) with rfl | rfl
        · exact Or.inl ((spec_canonical_iff uid).mpr hc)
        · obtain ⟨p, hp, hall⟩ := uuidCore_split uid.data ['\n'] hc
          refine Or.inr ⟨String.mk p, ?_, ?_⟩
          · rw [spec_canonical_iff]
            simpa using hall []
          · cases uid with
            | mk l =>
              simp only [String.data] at hp
              rw [hp]
              rfl
    · rintro (hcan | ⟨core, hcore, rfl⟩)
      · unfold uuidMatch
        rw [(spec_canonical_iff uid).mp hcan]
        simp
      · have hc := (spec_canonical_iff core).mp hcore
        obtain ⟨p, hp, hall⟩ := uuidCore_split core.data [] hc
        have hp' : p = core.data := by simpa using hp.symm
        have hnl : uuidCore (core.data ++ ['\n']) = some ['\n'] := by
          rw [← hp']
          exact hall ['\n']
        have hdata : (core ++ "\n").data = core.data ++ ['\n'] := by
          cases core with
          | mk l => rfl
        unfold uuidMatch
        rw [hdata, hnl]
        simp
  · have hc := (spec_canonical_iff uid).mp h
    have h36 := uuidCore_length uid.data [] hc
    simp only [List.length_nil] at h36
    show uid.data.length = 36
    omega

/-- C9 amended witness: a malformed identifier stops the run pre-flight; a
canonical identifier passes the format check. -/
theorem uuid_preflight_amended_witness :
    (uuidMatch "not-a-uuid" = false
      ∧ main_model "not-a-uuid" [] [] [] insOkAllE = ⟨true, 0, []⟩)
    ∧ (spec_canonical_uuid "aaaaaaaa-aaaa-aaaa-aaaa-aaaaaaaaaaaa" = true
      ∧ "aaaaaaaa-aaaa-aaaa-aaaa-aaaaaaaaaaaa".length = 36) :=
  ⟨⟨by decide, (uuid_preflight_amended "not-a-uuid" [] [] [] insOkAllE).1 (by decide)⟩,
   ⟨by decide,
    (uuid_preflight_amended "aaaaaaaa-aaaa-aaaa-aaaa-aaaaaaaaaaaa" [] [] [] insOkAllE).2.2
      (by decide)⟩⟩

/-- A canonical identifier followed by one newline: 37 characters, not the
canonical form. -/
def badUuidNl : String := "aaaaaaaa-aaaa-aaaa-aaaa-aaaaaaaaaaaa\n"

/-- C9 counterexample: an identifier that does NOT match the canonical
36-character form (it is 37 characters long, ending in a newline) passes the
script's pre-flight check, and the run proceeds to the destination reads
instead of terminating. -/
theorem uuid_preflight_counterexample :
    spec_canonical_uuid badUuidNl = false
    ∧ badUuidNl.length = 37
    ∧ uuidMatch badUuidNl = true
    ∧ (main_model badUuidNl [] [] [] insOkAllE).exitOnPreflight = false
    ∧ (main_model badUuidNl [] [] [] insOkAllE).destinationReads = 2 := by
  exact ⟨by decide, by decide, by decide, by rfl, by rfl⟩
